import Mathlib

/-!
Verification of the answer/verification pipeline of the medical-coding agent.

The TypeScript sources (src/index.ts, src/agent_helpers/index.ts,
src/agent_helpers/answer_handlers.ts) are shallowly embedded below.
External collaborators (language-model providers, the HTTP code resolvers,
the persisted cache file) are modelled as explicit inputs: provider
responses are oracle functions from question number and strategy index to
either a transport error or a response string, resolver responses are
passed in as values, and the persisted cache is threaded as a list.
JavaScript string/regex primitives used by the code are re-implemented on
Lean strings (ASCII-faithful; the pipeline data is ASCII).
-/

namespace MedAgent

/-! ## JavaScript string primitives -/

/-- The character class of the JS regex `\s`, restricted to ASCII
(the source only ever feeds it ASCII prompts and responses). -/
def isWsChar (c : Char) : Bool :=
  c = ' ' || c = '\t' || c = '\n' || c = '\r' || c = '\x0b' || c = '\x0c'

/-- ASCII lowercasing, modelling `String.prototype.toLowerCase` on the
ASCII text this pipeline handles. -/
def asciiLowerChar (c : Char) : Char :=
  if 'A' ≤ c ∧ c ≤ 'Z' then Char.ofNat (c.toNat + 32) else c

def asciiLower (s : String) : String :=
  ⟨s.data.map asciiLowerChar⟩

/-- Does `pat` occur at the head of `hay`? -/
def headMatches (pat hay : List Char) : Bool :=
  List.isPrefixOf pat hay

/-- Index of the first occurrence of `pat` in `hay` (JS `indexOf`),
as `none` when absent. -/
def firstOccAux (pat : List Char) : List Char → Option Nat
  | [] => if pat = [] then some 0 else none
  | c :: rest =>
    if headMatches pat (c :: rest) then some 0
    else (firstOccAux pat rest).map (· + 1)

def firstOcc (hay pat : String) : Option Nat :=
  firstOccAux pat.data hay.data

/-- JS `String.prototype.includes`. -/
def containsSub (hay pat : String) : Bool :=
  (firstOcc hay pat).isSome

/-- Index of the last occurrence of `pat` in `hay` (JS `lastIndexOf`). -/
def lastOccAux (pat : List Char) : List Char → Option Nat
  | [] => if pat = [] then some 0 else none
  | c :: rest =>
    match lastOccAux pat rest with
    | some i => some (i + 1)
    | none => if headMatches pat (c :: rest) then some 0 else none

def lastOcc (hay pat : String) : Option Nat :=
  lastOccAux pat.data hay.data

/-- JS `String.prototype.substring`: clamps both indices to the string
length and swaps them when `a > b`. -/
def jsSubstring (s : String) (a b : Nat) : String :=
  let lo := min a b
  let hi := max a b
  ⟨(s.data.take hi).drop lo⟩

/-- Everything before the first occurrence of `pat` (JS
`s.split(pat)[0]`; the whole string when `pat` does not occur). -/
def beforeFirst (s pat : String) : String :=
  match firstOcc s pat with
  | some i => ⟨s.data.take i⟩
  | none => s

/-- JS `String.prototype.trim` (ASCII whitespace). -/
def jsTrim (s : String) : String :=
  ⟨((s.data.dropWhile isWsChar).reverse.dropWhile isWsChar).reverse⟩

def isAsciiUpper (c : Char) : Bool := 'A' ≤ c && c ≤ 'Z'

def isAsciiDigit (c : Char) : Bool := '0' ≤ c && c ≤ '9'

/-- The JS regex word character class `\w` (ASCII letters, digits and
underscore), used for the `\b` boundaries of the CPT pattern. -/
def isWordChar (c : Char) : Bool :=
  isAsciiUpper c || ('a' ≤ c && c ≤ 'z') || isAsciiDigit c || c = '_'

/-! ## Regex scanners used by the pipeline

Each JS regex the pipeline relies on is deterministic (literals,
character classes, greedy runs of a class disjoint from what follows),
so leftmost-match search is modelled by trying every start position in
order. -/

/-- Does `[A-Z]\d{4}` match at the head of `l`? Returns the matched
five characters. -/
def hcpcsAt : List Char → Option (List Char)
  | a :: b :: c :: d :: e :: _ =>
    if isAsciiUpper a && isAsciiDigit b && isAsciiDigit c &&
       isAsciiDigit d && isAsciiDigit e then
      some [a, b, c, d, e]
    else none
  | _ => none

/-- Leftmost match of `[A-Z]\d{4}` (JS `s.match(/[A-Z]\d{4}/)`,
returning the matched text). -/
def firstHcpcsAux : List Char → Option (List Char)
  | [] => none
  | c :: rest =>
    match hcpcsAt (c :: rest) with
    | some m => some m
    | none => firstHcpcsAux rest

def firstHcpcs (s : String) : Option String :=
  (firstHcpcsAux s.data).map (⟨·⟩)

/-- All non-overlapping matches of `[A-Z]\d{4}`, left to right
(JS `s.match(/[A-Z]\d{4}/g)`). -/
def allHcpcsAux : List Char → List (List Char)
  | a :: b :: c :: d :: e :: rest =>
    if isAsciiUpper a && isAsciiDigit b && isAsciiDigit c &&
       isAsciiDigit d && isAsciiDigit e then
      [a, b, c, d, e] :: allHcpcsAux rest
    else allHcpcsAux (b :: c :: d :: e :: rest)
  | _ :: rest => allHcpcsAux rest
  | [] => []

def allHcpcs (s : String) : List String :=
  (allHcpcsAux s.data).map (⟨·⟩)

/-- Does `[A-Z]\d{2}` match at the head? (The `(\.\d+)?` tail of the
ICD-10 pattern is optional, so it never affects whether a match
exists.) -/
def icdAt : List Char → Bool
  | a :: b :: c :: _ => isAsciiUpper a && isAsciiDigit b && isAsciiDigit c
  | _ => false

/-- JS `/[A-Z]\d{2}(\.\d+)?/.test(s)`. -/
def hasIcdToken (s : String) : Bool :=
  (List.tails s.data).any icdAt

/-- Does `\b\d{5}\b` match at this position, given the character that
precedes it (none at the start of the string)? -/
def cptAt (prev : Option Char) : List Char → Bool
  | a :: b :: c :: d :: e :: rest =>
    isAsciiDigit a && isAsciiDigit b && isAsciiDigit c &&
    isAsciiDigit d && isAsciiDigit e &&
    (match prev with | none => true | some p => !isWordChar p) &&
    (match rest with | [] => true | f :: _ => !isWordChar f)
  | _ => false

def hasCptTokenAux (prev : Option Char) : List Char → Bool
  | [] => false
  | c :: rest => cptAt prev (c :: rest) || hasCptTokenAux (some c) rest

/-- JS `/\b\d{5}\b/.test(s)`. -/
def hasCptToken (s : String) : Bool :=
  hasCptTokenAux none s.data

/-! ## Data model (src/types.ts, interface Question) -/

inductive QType where
  | CPT
  | ICD10
  | HCPCS
  | GENERAL
deriving DecidableEq, Repr

structure Question where
  number : Int
  text : String
  options : Option (List String) := none
  myAnswer : Option String := none
  confidence : Option Int := none
  reasoning : Option String := none
  verifiedAnswer : Option String := none
  perplexityAnswer : Option String := none
  perplexityReasoning : Option String := none
  correctAnswer : Option String := none
  isCorrect : Option Bool := none
  questionType : Option QType := none
  modelUsed : Option String := none
deriving DecidableEq, Repr

/-! ## Classifier (determineQuestionType, src/agent_helpers/index.ts
lines 113-177)

The source also mutates `question.questionType` to the returned value;
the embedding returns the tag (the caller-side mutation is the pair
below). -/

def joinedOptions (q : Question) : String :=
  match q.options with
  | some os => asciiLower (String.intercalate " " os)
  | none => ""

def fullTextOf (q : Question) : String :=
  asciiLower q.text ++ " " ++ joinedOptions q

def hasHcpcsKeywords (q : Question) : Bool :=
  let fullText := fullTextOf q
  containsSub fullText "hcpcs" ||
  containsSub fullText "level ii code" ||
  containsSub fullText "durable medical equipment" ||
  containsSub fullText "prosthetic"

/-- The per-option HCPCS code test: `opt.match(/[A-Z]\d{4}/)` takes the
leftmost match only, and the code then requires `match[0][0] !== 'C'`. -/
def optionTriggersHcpcs (opt : String) : Bool :=
  match firstHcpcs opt with
  | some m => m.data.headD 'C' ≠ 'C'
  | none => false

def hasHcpcsOption (q : Question) : Bool :=
  match q.options with
  | some os => os.any optionTriggersHcpcs
  | none => false

def hasIcdKeywords (q : Question) : Bool :=
  let fullText := fullTextOf q
  containsSub fullText "icd-10" ||
  containsSub fullText "diagnosis code" ||
  containsSub fullText "diagnostic code" ||
  containsSub fullText "according to icd"

def hasIcdOption (q : Question) : Bool :=
  match q.options with
  | some os => os.any hasIcdToken
  | none => false

def hasCptKeywords (q : Question) : Bool :=
  let fullText := fullTextOf q
  containsSub fullText "cpt" ||
  containsSub fullText "procedure code" ||
  containsSub fullText "surgical code"

def hasCptOption (q : Question) : Bool :=
  match q.options with
  | some os => os.any hasCptToken
  | none => false

def determineQuestionType (q : Question) : QType :=
  if hasHcpcsKeywords q then QType.HCPCS
  else if hasHcpcsOption q then QType.HCPCS
  else if hasIcdKeywords q then QType.ICD10
  else if hasIcdOption q then QType.ICD10
  else if hasCptKeywords q then QType.CPT
  else if hasCptOption q then QType.CPT
  else QType.GENERAL

/-! ## Fixed-label extraction (the regexes of the Answerer and of the
challenge stage)

Each pattern is `LABEL` then `\s*` then a capture whose first character
class is disjoint from whitespace, so greedy whitespace skipping never
backtracks; leftmost-match search tries each start position in order. -/

def findLabelCaptureAux {α : Type} (label : List Char)
    (capture : List Char → Option α) : List Char → Option α
  | [] => none
  | c :: rest =>
    match
      (if headMatches label (c :: rest) then
        capture (((c :: rest).drop label.length).dropWhile isWsChar)
      else none) with
    | some a => some a
    | none => findLabelCaptureAux label capture rest

/-- Capture of `([A-D])`. -/
def captureLetterAD : List Char → Option Char
  | c :: _ => if 'A' ≤ c && c ≤ 'D' then some c else none
  | [] => none

def digitsToNat (l : List Char) : Nat :=
  l.foldl (fun n c => 10 * n + (c.toNat - 48)) 0

/-- Capture of `(\d+)` followed by JS `parseInt`. -/
def captureDigits (l : List Char) : Option Nat :=
  let ds := l.takeWhile isAsciiDigit
  if ds = [] then none else some (digitsToNat ds)

/-- The lazy capture `(.*?)(?=\n\n|$)` with the `s` flag: the shortest
text whose right end is a blank line or the end of input, i.e.
everything up to the first `\n\n` (the whole rest when there is none).
It always succeeds, so the first label occurrence wins. -/
def takeUntilDoubleNl : List Char → List Char
  | [] => []
  | c :: rest =>
    if headMatches ['\n', '\n'] (c :: rest) then []
    else c :: takeUntilDoubleNl rest

def captureToBlankLine (l : List Char) : Option String :=
  some ⟨takeUntilDoubleNl l⟩

/-- JS `content.match(/Answer:\s*([A-D])/)`, first capture group. -/
def matchAnswerLabel (content : String) : Option Char :=
  findLabelCaptureAux "Answer:".data captureLetterAD content.data

/-- JS `content.match(/Confidence:\s*(\d+)/)` with `parseInt` applied. -/
def matchConfidenceLabel (content : String) : Option Nat :=
  findLabelCaptureAux "Confidence:".data captureDigits content.data

/-- JS `content.match(/Reasoning:\s*(.*?)(?=\n\n|$)/s)`, first capture
group (untrimmed; the caller trims). -/
def matchReasoningLabel (content : String) : Option String :=
  findLabelCaptureAux "Reasoning:".data captureToBlankLine content.data

/-! ## Answerer response parsing (handleGeneralQuestion and
useO4MiniForQuestion, src/agent_helpers/answer_handlers.ts lines
621-648 and 694-714; both use the identical extraction and fallback) -/

structure AnswerRecord where
  answer : String
  confidence : Int
  reasoning : String
deriving DecidableEq, Repr

/-- The fixed fallback record synthesized when the response format is
not recognized. -/
def fallbackRecord : AnswerRecord :=
  { answer := "A", confidence := 5, reasoning := "Could not parse model response" }

def parseGeneralResponse (content : String) : AnswerRecord :=
  match matchAnswerLabel content, matchConfidenceLabel content with
  | some a, some c =>
    { answer := ⟨[a]⟩
      confidence := (c : Int)
      reasoning := ((matchReasoningLabel content).map jsTrim).getD "" }
  | _, _ => fallbackRecord

/-! ## Structured JSON blocks of the Escalation Chain

`JSON.parse` is modelled for the flat object shape every strategy is
instructed to emit: an object whose values are strings, integers,
booleans or null.  Escapes are the common ones; numbers with a
fractional or exponent part, nested values and other escapes are
treated as parse failures (such responses fail the strategy in the
model; the chain-level claims are insensitive to this restriction,
which only narrows which oracle responses count as successes). -/

inductive Json where
  | null
  | bool (b : Bool)
  | num (n : Int)
  | str (s : String)
  | arr (items : List Json)
  | obj (fields : List (String × Json))
deriving Repr

def lbrace : Char := Char.ofNat 123

def rbrace : Char := Char.ofNat 125

def unescapeChar : Char → Option Char
  | 'n' => some '\n'
  | 't' => some '\t'
  | 'r' => some '\r'
  | 'b' => some '\x08'
  | 'f' => some '\x0c'
  | '"' => some '"'
  | '\\' => some '\\'
  | '/' => some '/'
  | _ => none

/-- Scan a JSON string literal body (after the opening quote); returns
the decoded characters and the input after the closing quote. -/
def scanStringLit : List Char → Option (List Char × List Char)
  | [] => none
  | '"' :: rest => some ([], rest)
  | '\\' :: [] => none
  | '\\' :: e :: rest2 =>
    match unescapeChar e with
    | none => none
    | some d => (scanStringLit rest2).map (fun p => (d :: p.1, p.2))
  | c :: rest => (scanStringLit rest).map (fun p => (c :: p.1, p.2))

def scanNatDigits (l : List Char) : Option (Nat × List Char) :=
  let ds := l.takeWhile isAsciiDigit
  if ds = [] then none else some (digitsToNat ds, l.drop ds.length)

/-- An integer JSON number; a following `.`, `e` or `E` means the
number is not an integer and the parse is rejected. -/
def scanInt (l : List Char) : Option (Int × List Char) :=
  let core : List Char → Option (Int × List Char) := fun l' =>
    (scanNatDigits l').map (fun p => ((p.1 : Int), p.2))
  let signed : Option (Int × List Char) :=
    match l with
    | '-' :: rest => (core rest).map (fun p => (-p.1, p.2))
    | _ => core l
  match signed with
  | none => none
  | some (n, r) =>
    match r with
    | c :: _ => if c = '.' || c = 'e' || c = 'E' then none else some (n, r)
    | [] => some (n, r)

def skipWsL (l : List Char) : List Char := l.dropWhile isWsChar

/-- A scalar JSON value (string, integer, boolean or null). -/
def parseScalar (l : List Char) : Option (Json × List Char) :=
  match l with
  | '"' :: rest => (scanStringLit rest).map (fun p => (Json.str ⟨p.1⟩, p.2))
  | _ =>
    if headMatches "true".data l then some (Json.bool true, l.drop 4)
    else if headMatches "false".data l then some (Json.bool false, l.drop 5)
    else if headMatches "null".data l then some (Json.null, l.drop 4)
    else (scanInt l).map (fun p => (Json.num p.1, p.2))

/-- Members of a flat JSON object, fuel-bounded. After each member a
comma continues the object and a closing brace ends it. -/
def parseMembers : Nat → List Char → Option (List (String × Json) × List Char)
  | 0, _ => none
  | fuel + 1, l =>
    match skipWsL l with
    | '"' :: rest =>
      match scanStringLit rest with
      | none => none
      | some (key, r1) =>
        match skipWsL r1 with
        | ':' :: r3 =>
          match parseScalar (skipWsL r3) with
          | none => none
          | some (v, r4) =>
            match skipWsL r4 with
            | c :: r6 =>
              if c = ',' then
                (parseMembers fuel r6).map (fun p => ((⟨key⟩, v) :: p.1, p.2))
              else if c = rbrace then some ([(⟨key⟩, v)], r6)
              else none
            | [] => none
        | _ => none
    | _ => none

/-- Parse an entire string as a flat JSON object (with surrounding
whitespace), returning its field list in source order. -/
def parseJsonObjectFlat (s : String) : Option (List (String × Json)) :=
  match skipWsL s.data with
  | c :: rest =>
    if c = lbrace then
      match skipWsL rest with
      | d :: rest2 =>
        if d = rbrace then
          if skipWsL rest2 = [] then some [] else none
        else
          match parseMembers (rest.length + 1) rest with
          | some (ms, r) => if skipWsL r = [] then some ms else none
          | none => none
      | [] => none
    else none
  | [] => none

/-- Property access on the parsed object. With duplicate keys,
`JSON.parse` keeps the last occurrence, hence the reverse search. -/
def getField (fields : List (String × Json)) (key : String) : Option Json :=
  (fields.reverse.find? (fun f => f.1 == key)).map (fun f => f.2)

/-- The structured result every escalation strategy must emit. -/
structure VerifyResult where
  reasoningSummary : String
  finalAnswer : String
  confidence : Int
deriving DecidableEq, Repr

/-- `JSON.parse` of the extracted block followed by the field accesses
`result.reasoningSummary`, `result.finalAnswer`, `result.confidence`
(a missing or non-conforming field is treated as a parse failure). -/
def parseVerifyJson (s : String) : Option VerifyResult :=
  match parseJsonObjectFlat s with
  | none => none
  | some fs =>
    match getField fs "reasoningSummary", getField fs "finalAnswer",
          getField fs "confidence" with
    | some (Json.str rs), some (Json.str fa), some (Json.num c) =>
      some { reasoningSummary := rs, finalAnswer := fa, confidence := c }
    | _, _, _ => none

/-- The block location of every strategy (src/index.ts lines 2244-2250,
2302-2308, 2357-2363): `content.lastIndexOf(\x60\x60\x60json)`, failing
when absent, then `content.substring(start + 7, content.lastIndexOf(\x60\x60\x60))`. -/
def extractJsonBlock (content : String) : Option String :=
  match lastOcc content "```json" with
  | none => none
  | some i => some (jsSubstring content (i + 7) ((lastOcc content "```").getD 0))

/-! ## Escalation Chain (verifyLowConfidenceAnswers, src/index.ts lines
2186-2395)

Three strategies are tried per low-confidence question: Perplexity
Reasoning Pro, Perplexity Search Pro, then the GPT-4o fallback.  A
provider call either raises a transport error or returns free text; the
oracle `env` maps a question number and a strategy index to that
outcome, so one run of the source corresponds to one `env`.  (The
single-strategy variant in src/agent_helpers/index.ts lines 404-540 is
the same state machine with only the third strategy present.) -/

/-- `q.confidence || 0`: a missing confidence is treated as 0. -/
def confOrZero (q : Question) : Int := q.confidence.getD 0

/-- One strategy body up to its structured result: a transport error or
a missing/unparsable JSON block throws, which the source catches and
turns into fail-over to the next strategy. -/
def attemptStrategy (r : Except String String) : Option (String × VerifyResult) :=
  match r with
  | Except.error _ => none
  | Except.ok content =>
    match extractJsonBlock content with
    | none => none
    | some block => (parseVerifyJson block).map (fun v => (content, v))

/-- The sequential try/catch cascade: the first strategy whose attempt
succeeds wins and the rest are skipped (`if (success) continue`). -/
def runStrategies (resp : Fin 3 → Except String String) :
    Option (Fin 3 × String × VerifyResult) :=
  match attemptStrategy (resp 0) with
  | some (c, v) => some (0, c, v)
  | none =>
    match attemptStrategy (resp 1) with
    | some (c, v) => some (1, c, v)
    | none =>
      match attemptStrategy (resp 2) with
      | some (c, v) => some (2, c, v)
      | none => none

/-- The leading analysis tag of `fullReasoning` for each strategy. -/
def strategyTag : Fin 3 → String
  | 0 => "Perplexity Reasoning Pro Analysis:\n"
  | 1 => "Perplexity Search Pro Analysis:\n"
  | 2 => "GPT-4o Fallback Analysis:\n"

def mkFullReasoning (k : Fin 3) (content : String) (v : VerifyResult) : String :=
  strategyTag k ++ jsTrim (beforeFirst content "```json") ++
    "\n\nSummary: " ++ v.reasoningSummary

/-- The per-strategy field writes into the question slot.  The two
Perplexity strategies additionally record `perplexityAnswer` and
`perplexityReasoning`; all three overwrite `verifiedAnswer`,
`confidence` and `reasoning`. -/
def strategyWrite (q : Question) (k : Fin 3) (content : String)
    (v : VerifyResult) : Question :=
  let fullReasoning := mkFullReasoning k content v
  if k = 2 then
    { q with
      verifiedAnswer := some v.finalAnswer
      confidence := some v.confidence
      reasoning := some fullReasoning }
  else
    { q with
      perplexityAnswer := some v.finalAnswer
      perplexityReasoning := some fullReasoning
      verifiedAnswer := some v.finalAnswer
      confidence := some v.confidence
      reasoning := some fullReasoning }

/-- The whole chain for one question (everything between a success or
final failure and the next loop iteration). -/
def chainApply (resp : Fin 3 → Except String String) (q : Question) : Question :=
  match runStrategies resp with
  | none => q
  | some (k, content, v) => strategyWrite q k content v

/-- `l[i] = f l[i]` on a list (the assignment
`verifiedQuestions[questionIndex] = \x7b...verifiedQuestions[questionIndex], ...\x7d`). -/
def setModify (l : List Question) (i : Nat) (f : Question → Question) :
    List Question :=
  match l[i]? with
  | some x => l.set i (f x)
  | none => l

/-- Find the slot by `findIndex(q2 => q2.number === m)` and rewrite it
(a missing slot leaves the list untouched, as the JS index `-1`
assignment does not change any array element). -/
def updByNum (l : List Question) (m : Int) (f : Question → Question) :
    List Question :=
  match l.findIdx? (fun q2 => q2.number == m) with
  | some i => setModify l i f
  | none => l

/-- One iteration of the verification loop: on success the slot found
by `findIndex(q2 => q2.number === question.number)` is rewritten; on
total failure nothing is touched. -/
def verifyStep (env : Int → Fin 3 → Except String String)
    (vq : List Question) (question : Question) : List Question :=
  match runStrategies (env question.number) with
  | none => vq
  | some (k, content, v) =>
    updByNum vq question.number (fun q2 => strategyWrite q2 k content v)

def verifyLowConfidenceAnswers (questions : List Question)
    (env : Int → Fin 3 → Except String String) : List Question :=
  let lowConfidenceQuestions := questions.filter (fun q => confOrZero q < 6)
  if lowConfidenceQuestions.isEmpty then questions
  else lowConfidenceQuestions.foldl (verifyStep env) questions

/-- `l.find(q => q.number === n)`: the output entry for a question
number. -/
def lookupByNum (l : List Question) (n : Int) : Option Question :=
  l.find? (fun q => q.number == n)

/-! ## Devils-advocate challenge stage (devilsAdvocateCheck,
src/agent_helpers/index.ts lines 543-628)

In this pipeline variant the random sampling is commented out and the
sampled list is the hard-coded empty array.  The challenge-step body is
embedded anyway so the dead branch keeps its source shape; `env` maps a
question number to the Perplexity response (or a transport error). -/

/-- `a || b` on JS strings/undefined: an undefined or empty `a` falls
through to `b`. -/
def jsOrStr (a b : Option String) : Option String :=
  match a with
  | some s => if s = "" then b else some s
  | none => b

def captureChallengeResult (l : List Char) : Option String :=
  if headMatches "CONFIRMED".data l then some "CONFIRMED"
  else if headMatches "CHANGED".data l then some "CHANGED"
  else none

/-- JS `response.match(/CHALLENGE_RESULT:\s*(CONFIRMED|CHANGED)/)`. -/
def matchChallengeResult (content : String) : Option String :=
  findLabelCaptureAux "CHALLENGE_RESULT:".data captureChallengeResult content.data

/-- JS `response.match(/FINAL_ANSWER:\s*([A-D])/)`. -/
def matchFinalAnswerLabel (content : String) : Option Char :=
  findLabelCaptureAux "FINAL_ANSWER:".data captureLetterAD content.data

/-- JS `response.match(/EVIDENCE:\s*(.*?)(?=\n\n|$)/s)`. -/
def matchEvidenceLabel (content : String) : Option String :=
  findLabelCaptureAux "EVIDENCE:".data captureToBlankLine content.data

def challengeStep (env : Int → Except String String)
    (qs : List Question) (question : Question) : List Question :=
  match env question.number with
  | Except.error _ => qs
  | Except.ok challengeResponse =>
    match matchChallengeResult challengeResponse,
          matchFinalAnswerLabel challengeResponse with
    | some challengeResult, some finalAnswer =>
      let evidence := ((matchEvidenceLabel challengeResponse).map jsTrim).getD
        "No evidence provided"
      let fa : String := ⟨[finalAnswer]⟩
      if challengeResult = "CHANGED" ∧
          jsOrStr question.verifiedAnswer question.myAnswer ≠ some fa then
        updByNum qs question.number (fun q =>
          { q with
            verifiedAnswer := some fa
            reasoning := some ("Perplexity challenge: " ++ evidence) })
      else qs
    | _, _ => qs

def devilsAdvocateCheck (questions : List Question)
    (env : Int → Except String String) : List Question :=
  let _mediumConfidenceQuestions := questions.filter (fun q =>
    6 ≤ confOrZero q ∧ confOrZero q ≤ 7)
  let sampledQuestions : List Question := []
  if sampledQuestions.length > 0 then
    sampledQuestions.foldl (challengeStep env) questions
  else questions

/-! ## Knowledge cache and resolvers (answer_handlers.ts)

A cache family is a list of `\x7bcode, description, explanation?\x7d` records;
`find(item => item.code === code)` is the lookup.  The resolver HTTP
calls are modelled by their outcome values. -/

structure CodeEntry where
  code : String
  description : String
  explanation : Option String := none
deriving DecidableEq, Repr

def findEntry (cache : List CodeEntry) (code : String) : Option CodeEntry :=
  cache.find? (fun item => item.code == code)

/-- The HCPCS extraction loop (handleHCPCSQuestion lines 16-24): every
match of `/[A-Z]\d\x7b4\x7d/g` of every option, in order, duplicates kept. -/
def hcpcsCodesOf (options : Option (List String)) : List String :=
  match options with
  | some os => (os.map allHcpcs).flatten
  | none => []

/-- The cache partition (lines 56-71): codes already cached feed the
description map; the rest are queued as `codesToFetch` in order, with
duplicates preserved (no de-duplication happens anywhere). -/
def codesToFetch (cache : List CodeEntry) (codes : List String) : List String :=
  codes.filter (fun code => (findEntry cache code).isNone)

/-- How many times the fetch loop (`for (const code of codesToFetch)`)
invokes the external resolver for a given code. -/
def fetchInvocations (cache : List CodeEntry) (codes : List String)
    (c : String) : Nat :=
  (codesToFetch cache codes).count c

/-- JS truthiness of a JSON value. -/
def jsTruthy : Json → Bool
  | Json.null => false
  | Json.bool b => b
  | Json.num n => n ≠ 0
  | Json.str s => s ≠ ""
  | Json.arr _ => true
  | Json.obj _ => true

/-- Scan the `[[code, description], ...]` pair list for the first pair
whose head is the requested code (`pair[0] === code`), taking `pair[1]`. -/
def findPairDesc (pairs : List Json) (code : String) : Option Json :=
  match pairs with
  | [] => none
  | p :: rest =>
    match p with
    | Json.arr (p0 :: p1 :: _) =>
      match p0 with
      | Json.str s => if s = code then some p1 else findPairDesc rest code
      | _ => findPairDesc rest code
    | _ => findPairDesc rest code

/-- The clinicaltables response parsing shared by the HCPCS and ICD-10
handlers: primary format `[count, [codes], null, [[code, description],
...]]`, alternate format `[[code, description], ...]`. -/
def clinicalTablesExtract (data : Json) (code : String) : Option Json :=
  match data with
  | Json.arr xs =>
    if xs.length ≥ 4 then
      match xs.get? 3 with
      | some (Json.arr pairs) => findPairDesc pairs code
      | _ =>
        match xs.get? 0 with
        | some (Json.arr _) => findPairDesc xs code
        | _ => none
    else
      match xs.get? 0 with
      | some (Json.arr _) => findPairDesc xs code
      | _ => none
  | _ => none

/-- One iteration of the HCPCS fetch loop (handleHCPCSQuestion lines
77-134): on a transport error the catch only logs; on a response with
no usable description the code only logs `No description found` — in
both failure cases nothing is inserted into the cache.  Only a truthy
string description is inserted and recorded.  (A truthy non-string
`pair[1]` would be inserted as-is by JS; such API values are outside
this model.) -/
def hcpcsFetchStep (cache : List CodeEntry) (code : String)
    (resp : Except String Json) : List CodeEntry × Option String :=
  match resp with
  | Except.error _ => (cache, none)
  | Except.ok data =>
    match clinicalTablesExtract data code with
    | some (Json.str s) =>
      if s ≠ "" then (cache ++ [{ code := code, description := s }], some s)
      else (cache, none)
    | _ => (cache, none)

/-- One iteration of the ICD-10 fetch loop (handleICD10Question lines
501-558): identical failure handling — nothing is inserted on
not-found or transport error. -/
def icd10FetchStep (cache : List CodeEntry) (code : String)
    (resp : Except String Json) : List CodeEntry × Option String :=
  match resp with
  | Except.error _ => (cache, none)
  | Except.ok data =>
    match clinicalTablesExtract data code with
    | some (Json.str s) =>
      if s ≠ "" then (cache ++ [{ code := code, description := s }], some s)
      else (cache, none)
    | _ => (cache, none)

/-- An axios failure: `status` is the HTTP status of `error.response`
when one exists. -/
structure HttpErr where
  status : Option Nat
deriving DecidableEq, Repr

def cptPlaceholder (code : String) : String :=
  "CPT code " ++ code ++ " - research this code further for accurate information."

def cptNotFoundMsg (code : String) : String :=
  "CPT code " ++ code ++ " - Not found on AAPC website. This may be a test code or requires specialized knowledge. Please research this code further."

def cptErrorMsg (code : String) : String :=
  "CPT code " ++ code ++ " - Unable to retrieve description due to technical error. Please research this code further."

/-- One iteration of the CPT fetch loop (handleCPTQuestions lines
278-390).  The cheerio scraping of the AAPC page is modelled by its end
product `fullDescription` (empty when neither a description nor a
summary could be extracted).  An empty result inserts the research
placeholder; a transport error inserts the 404 or generic error message
(`error.response && error.response.status === 404`); in every case an
entry for the code is pushed and the description recorded. -/
def cptFetchStep (cache : List CodeEntry) (code : String)
    (resp : Except HttpErr String) : List CodeEntry × String :=
  match resp with
  | Except.ok fullDescription =>
    if fullDescription ≠ "" then
      (cache ++ [{ code := code, description := fullDescription }], fullDescription)
    else
      (cache ++ [{ code := code, description := cptPlaceholder code }],
        cptPlaceholder code)
  | Except.error e =>
    let msg := if e.status = some 404 then cptNotFoundMsg code else cptErrorMsg code
    (cache ++ [{ code := code, description := msg }], msg)

/-! ## Scoring against the answer key (compareNode, src/index.ts lines
1643-1690, JSON-answer-key branch) -/

structure KeyItem where
  number : Int
  answer : String
deriving DecidableEq, Repr

structure ResultItem where
  number : Int
  myAnswer : String
  correctAnswer : String
  isCorrect : Bool
deriving DecidableEq, Repr

/-- The submitted final answer: `q.verifiedAnswer || q.myAnswer`. -/
def finalAnswerJs (q : Question) : Option String :=
  jsOrStr q.verifiedAnswer q.myAnswer

/-- One result row: the submission found by
`finalAnswers.find(a => a.number === keyItem.number)` compared against
the key entry; a missing submission reads "N/A" and compares unequal
(never throws). -/
def compareRow (finalAnswers : List (Int × Option String))
    (keyItem : KeyItem) : ResultItem :=
  let myAnswer := finalAnswers.find? (fun a => a.1 == keyItem.number)
  { number := keyItem.number
    myAnswer := ((jsOrStr (myAnswer.bind (fun a => a.2)) (some "N/A")).getD "N/A")
    correctAnswer := keyItem.answer
    isCorrect := (myAnswer.bind (fun a => a.2)) == some keyItem.answer }

/-- `answerKeyData.map(keyItem => ...)`: one result row per key entry. -/
def compareResults (questions : List Question) (answerKeyData : List KeyItem) :
    List ResultItem :=
  answerKeyData.map
    (compareRow (questions.map (fun q => (q.number, finalAnswerJs q))))

structure ScoreOutcome where
  totalQuestions : Nat
  correctAnswers : Nat
  incorrectAnswers : Nat
  percentage : Nat
  details : List ResultItem
deriving DecidableEq, Repr

/-- `Math.round((c / t) * 100)` for naturals: floor of `100c/t + 1/2`
(JS rounds half away from zero, here half up since everything is
non-negative).  The source divides only with `t` the key length; for
`t = 0` JS would yield NaN, modelled as 0 (no claim touches it). -/
def jsRoundPct (c t : Nat) : Nat := (200 * c + t) / (2 * t)

def scoreAgainstKey (questions : List Question) (answerKeyData : List KeyItem) :
    ScoreOutcome :=
  let results := compareResults questions answerKeyData
  let correctCount := (results.filter (fun r => r.isCorrect)).length
  let totalCount := results.length
  { totalQuestions := totalCount
    correctAnswers := correctCount
    incorrectAnswers := totalCount - correctCount
    percentage := jsRoundPct correctCount totalCount
    details := results }

/-! ## Performance log (generatePerformanceLog, src/index.ts lines
1570-1642 and src/agent_helpers/index.ts lines 762-834; identical
aggregation).  The per-question detail map carries no aggregation and
is not needed by any claim; the summary is embedded. -/

structure Stats where
  total : Nat
  correct : Nat
  percentage : Nat
deriving DecidableEq, Repr

def emptyStats : Stats := { total := 0, correct := 0, percentage := 0 }

structure TypeTable where
  cpt : Stats
  icd : Stats
  hcpcs : Stats
  general : Stats
deriving DecidableEq, Repr

def typeStats (t : TypeTable) : QType → Stats
  | QType.CPT => t.cpt
  | QType.ICD10 => t.icd
  | QType.HCPCS => t.hcpcs
  | QType.GENERAL => t.general

/-- The fallback `q.questionType || GENERAL`. -/
def qTypeOf (q : Question) : QType := q.questionType.getD QType.GENERAL

/-- The fallback `q.modelUsed || unknown`. -/
def modelOf (q : Question) : String :=
  (jsOrStr q.modelUsed (some "unknown")).getD "unknown"

/-- `if (q.isCorrect)`. -/
def isCorrectJs (q : Question) : Bool := q.isCorrect.getD false

def bumpStats (s : Stats) (isC : Bool) : Stats :=
  { s with total := s.total + 1, correct := if isC then s.correct + 1 else s.correct }

def bumpType (t : TypeTable) (ty : QType) (isC : Bool) : TypeTable :=
  match ty with
  | QType.CPT => { t with cpt := bumpStats t.cpt isC }
  | QType.ICD10 => { t with icd := bumpStats t.icd isC }
  | QType.HCPCS => { t with hcpcs := bumpStats t.hcpcs isC }
  | QType.GENERAL => { t with general := bumpStats t.general isC }

/-- The `byModel` object: properties in insertion order, created with
zeroed stats on first sight of a model name, updated in place. -/
def bumpModel (l : List (String × Stats)) (m : String) (isC : Bool) :
    List (String × Stats) :=
  match l with
  | [] => [(m, bumpStats emptyStats isC)]
  | (k, s) :: rest =>
    if k = m then (k, bumpStats s isC) :: rest
    else (k, s) :: bumpModel rest m isC

structure Summary where
  totalQuestions : Nat
  correctAnswers : Nat
  byQuestionType : TypeTable
  byModel : List (String × Stats)
deriving DecidableEq, Repr

/-- The percentage pass: `stats.percentage = stats.total > 0 ?
Math.round((stats.correct / stats.total) * 100) : 0`. -/
def pctPass (s : Stats) : Stats :=
  { s with percentage := if s.total > 0 then jsRoundPct s.correct s.total else 0 }

def initTable : TypeTable :=
  { cpt := emptyStats, icd := emptyStats, hcpcs := emptyStats, general := emptyStats }

/-- One iteration of the aggregation loop. -/
def plStep (p : TypeTable × List (String × Stats)) (q : Question) :
    TypeTable × List (String × Stats) :=
  (bumpType p.1 (qTypeOf q) (isCorrectJs q),
   bumpModel p.2 (modelOf q) (isCorrectJs q))

def generatePerformanceLog (questions : List Question) : Summary :=
  let acc := questions.foldl plStep (initTable, [])
  { totalQuestions := questions.length
    correctAnswers := (questions.filter isCorrectJs).length
    byQuestionType :=
      { cpt := pctPass acc.1.cpt, icd := pctPass acc.1.icd,
        hcpcs := pctPass acc.1.hcpcs, general := pctPass acc.1.general }
    byModel := acc.2.map (fun p => (p.1, pctPass p.2)) }

/-! ## Lemmas: keyed slot updates and the verification fold -/

theorem lookupByNum_cons (q : Question) (l : List Question) (n : Int) :
    lookupByNum (q :: l) n = if q.number == n then some q else lookupByNum l n := by
  cases h : q.number == n <;> simp [lookupByNum, List.find?, h]

theorem find_nodup (l : List Question) (hnd : (l.map Question.number).Nodup)
    (q : Question) (hq : q ∈ l) : lookupByNum l q.number = some q := by
  induction l with
  | nil => cases hq
  | cons h t ih =>
    rcases List.mem_cons.mp hq with rfl | hq'
    · simp [lookupByNum_cons]
    · have hne : (h.number == q.number) = false := by
        rw [beq_eq_false_iff_ne]
        intro he
        have hmem : q.number ∈ t.map Question.number := List.mem_map_of_mem _ hq'
        rw [List.map_cons, List.nodup_cons] at hnd
        exact hnd.1 (he ▸ hmem)
      rw [lookupByNum_cons, hne]
      exact ih ((List.map_cons Question.number h t ▸ hnd).of_cons) hq'

theorem updByNum_cons (x : Question) (t : List Question) (m : Int)
    (f : Question → Question) :
    updByNum (x :: t) m f =
      if x.number == m then f x :: t else x :: updByNum t m f := by
  by_cases hh : x.number = m
  · simp [updByNum, setModify, List.findIdx?_cons, hh]
  · have hb : (x.number == m) = false := by simpa using hh
    simp only [updByNum, List.findIdx?_cons, hb, cond_false, Bool.false_eq_true,
      if_false, List.findIdx?_succ]
    cases hi : List.findIdx? (fun q2 => q2.number == m) t with
    | none => simp [hi]
    | some i =>
      simp only [hi, Option.map_some']
      show setModify (x :: t) (i + 1) f = x :: setModify t i f
      unfold setModify
      cases hg : t[i]? with
      | none => simp [hg]
      | some y => simp [hg]

theorem lookup_updByNum (m : Int) (a : Question)
    (f : Question → Question) (hf : ∀ y, (f y).number = y.number) :
    ∀ (l : List Question), lookupByNum l m = some a → ∀ n,
    lookupByNum (updByNum l m f) n =
      if n = m then some (f a) else lookupByNum l n := by
  intro l
  induction l with
  | nil => intro ha; simp [lookupByNum, List.find?] at ha
  | cons x t ih =>
    intro ha n
    rw [updByNum_cons]
    by_cases hh : x.number = m
    · have hb : (x.number == m) = true := by simpa using hh
      have ha' : a = x := by
        rw [lookupByNum_cons, hb, if_pos rfl] at ha
        exact (Option.some.inj ha).symm
      rw [hb, if_pos rfl, lookupByNum_cons, lookupByNum_cons, hf]
      by_cases hn : n = m
      · have hb2 : (x.number == n) = true := by simp [hh, hn]
        rw [if_pos hn, hb2, if_pos rfl, ha']
      · have hb2 : (x.number == n) = false := by
          rw [beq_eq_false_iff_ne, hh]; exact fun he => hn he.symm
        rw [if_neg hn, hb2]
        simp
    · have hb : (x.number == m) = false := by simpa using hh
      rw [lookupByNum_cons, hb] at ha
      simp only [Bool.false_eq_true, if_false] at ha
      rw [hb]
      simp only [Bool.false_eq_true, if_false]
      rw [lookupByNum_cons, lookupByNum_cons]
      by_cases hn : x.number = n
      · have hb2 : (x.number == n) = true := by simpa using hn
        have hnm : n ≠ m := fun he => hh (hn.trans he)
        rw [if_neg hnm, hb2]
        simp
      · have hb2 : (x.number == n) = false := by simpa using hn
        rw [hb2]
        simp only [Bool.false_eq_true, if_false]
        exact ih ha n

theorem strategyWrite_number (q : Question) (k : Fin 3) (c : String)
    (v : VerifyResult) : (strategyWrite q k c v).number = q.number := by
  unfold strategyWrite
  split <;> rfl

theorem strategyWrite_verifiedAnswer (q : Question) (k : Fin 3) (c : String)
    (v : VerifyResult) : (strategyWrite q k c v).verifiedAnswer = some v.finalAnswer := by
  unfold strategyWrite
  split <;> rfl

theorem strategyWrite_confidence (q : Question) (k : Fin 3) (c : String)
    (v : VerifyResult) : (strategyWrite q k c v).confidence = some v.confidence := by
  unfold strategyWrite
  split <;> rfl

theorem verifyStep_lookup (env : Int → Fin 3 → Except String String)
    (vq : List Question) (b : Question)
    (hb : lookupByNum vq b.number = some b) : ∀ n,
    lookupByNum (verifyStep env vq b) n =
      if n = b.number then some (chainApply (env b.number) b)
      else lookupByNum vq n := by
  intro n
  unfold verifyStep chainApply
  cases hr : runStrategies (env b.number) with
  | none =>
    by_cases hn : n = b.number
    · subst hn; rw [if_pos rfl, hb]
    · rw [if_neg hn]
  | some t =>
    obtain ⟨k, c, v⟩ := t
    exact lookup_updByNum b.number b _ (fun x => strategyWrite_number x k c v) vq hb n

theorem foldl_verifyStep_lookup (env : Int → Fin 3 → Except String String) :
    ∀ (L vq : List Question),
    (∀ b ∈ L, lookupByNum vq b.number = some b) →
    (L.map Question.number).Nodup →
    ∀ n, lookupByNum (L.foldl (verifyStep env) vq) n =
      match L.find? (fun b => b.number == n) with
      | some b => some (chainApply (env b.number) b)
      | none => lookupByNum vq n := by
  intro L
  induction L with
  | nil => intro vq _ _ n; simp [List.find?]
  | cons b0 L' ih =>
    intro vq hmem hnd n
    have hb0 : lookupByNum vq b0.number = some b0 := hmem b0 (List.mem_cons_self _ _)
    have hstep := verifyStep_lookup env vq b0 hb0
    have hnd' : (L'.map Question.number).Nodup :=
      (List.map_cons Question.number b0 L' ▸ hnd).of_cons
    have hout : b0.number ∉ L'.map Question.number := by
      rw [List.map_cons, List.nodup_cons] at hnd
      exact hnd.1
    have hmem' : ∀ b ∈ L', lookupByNum (verifyStep env vq b0) b.number = some b := by
      intro b hb
      rw [hstep b.number]
      have : b.number ≠ b0.number := by
        intro he
        exact hout (he ▸ List.mem_map_of_mem _ hb)
      rw [if_neg this]
      exact hmem b (List.mem_cons_of_mem _ hb)
    rw [List.foldl_cons]
    rw [ih (verifyStep env vq b0) hmem' hnd' n]
    by_cases hn : b0.number = n
    · have hfind : L'.find? (fun b => b.number == n) = none := by
        rw [List.find?_eq_none]
        intro x hx hpx
        have : x.number = n := by simpa using hpx
        exact hout (hn ▸ this ▸ List.mem_map_of_mem _ hx)
      have hcons : (b0 :: L').find? (fun b => b.number == n) = some b0 := by
        have : (b0.number == n) = true := by simpa using hn
        simp [List.find?, this]
      rw [hfind, hcons, hstep n, if_pos hn.symm]
    · have hcons : (b0 :: L').find? (fun b => b.number == n) =
          L'.find? (fun b => b.number == n) := by
        have : (b0.number == n) = false := by simpa using hn
        simp [List.find?, this]
      rw [hcons]
      cases hfind : L'.find? (fun b => b.number == n) with
      | some b => rfl
      | none => rw [hstep n, if_neg (fun he => hn he.symm)]

/-- The central characterization of the Escalation Chain: with unique
question numbers (the data model makes the ordinal unique within a
run), the output slot of each question is the chain result exactly when its
confidence gates it in, and is untouched otherwise. -/
theorem verify_lookup (questions : List Question)
    (env : Int → Fin 3 → Except String String)
    (hnd : (questions.map Question.number).Nodup)
    (q : Question) (hq : q ∈ questions) :
    lookupByNum (verifyLowConfidenceAnswers questions env) q.number =
      some (if confOrZero q < 6 then chainApply (env q.number) q else q) := by
  unfold verifyLowConfidenceAnswers
  set lowConf := questions.filter (fun q => confOrZero q < 6) with hlc
  have hsub : (lowConf.map Question.number).Nodup :=
    hnd.sublist ((List.filter_sublist questions).map Question.number)
  by_cases hempty : lowConf.isEmpty
  · rw [if_pos hempty]
    have hnotlow : ¬ confOrZero q < 6 := by
      intro hlow
      have : q ∈ lowConf := by
        rw [hlc, List.mem_filter]
        exact ⟨hq, by simpa using hlow⟩
      rw [List.isEmpty_iff] at hempty
      rw [hempty] at this
      cases this
    rw [if_neg hnotlow]
    exact find_nodup questions hnd q hq
  · rw [if_neg hempty]
    have hmem : ∀ b ∈ lowConf, lookupByNum questions b.number = some b := by
      intro b hb
      exact find_nodup questions hnd b (List.mem_filter.mp hb).1
    rw [foldl_verifyStep_lookup env lowConf questions hmem hsub q.number]
    by_cases hlow : confOrZero q < 6
    · have hqlc : q ∈ lowConf := by
        rw [hlc, List.mem_filter]
        exact ⟨hq, by simpa using hlow⟩
      have hfind2 : lowConf.find? (fun b => b.number == q.number) = some q :=
        find_nodup lowConf hsub q hqlc
      rw [hfind2, if_pos hlow]
    · have hfind : lowConf.find? (fun b => b.number == q.number) = none := by
        rw [List.find?_eq_none]
        intro x hx hpx
        have hxq : x.number = q.number := by simpa using hpx
        have hxmem : x ∈ questions := (List.mem_filter.mp hx).1
        have : x = q := List.inj_on_of_nodup_map hnd hxmem hq hxq
        subst this
        exact hlow (of_decide_eq_true (List.mem_filter.mp hx).2)
      rw [hfind, if_neg hlow]
      exact find_nodup questions hnd q hq

theorem runStrategies_first (resp : Fin 3 → Except String String) (k : Fin 3)
    (c : String) (v : VerifyResult)
    (h : runStrategies resp = some (k, c, v)) :
    attemptStrategy (resp k) = some (c, v) ∧
    ∀ j : Fin 3, j < k → attemptStrategy (resp j) = none := by
  unfold runStrategies at h
  cases h0 : attemptStrategy (resp 0) with
  | some p =>
    obtain ⟨p1, p2⟩ := p
    rw [h0] at h
    simp only [Option.some.injEq, Prod.mk.injEq] at h
    obtain ⟨hk, hc, hv⟩ := h
    subst hk; subst hc; subst hv
    refine ⟨h0, ?_⟩
    intro j hj
    exact absurd hj (by simp [Fin.lt_def])
  | none =>
    rw [h0] at h
    cases h1 : attemptStrategy (resp 1) with
    | some p =>
      obtain ⟨p1, p2⟩ := p
      rw [h1] at h
      simp only [Option.some.injEq, Prod.mk.injEq] at h
      obtain ⟨hk, hc, hv⟩ := h
      subst hk; subst hc; subst hv
      refine ⟨h1, ?_⟩
      intro j hj
      fin_cases j
      · exact h0
      · exact absurd hj (by simp [Fin.lt_def])
      · exact absurd hj (by simp [Fin.lt_def])
    | none =>
      rw [h1] at h
      cases h2 : attemptStrategy (resp 2) with
      | some p =>
        obtain ⟨p1, p2⟩ := p
        rw [h2] at h
        simp only [Option.some.injEq, Prod.mk.injEq] at h
        obtain ⟨hk, hc, hv⟩ := h
        subst hk; subst hc; subst hv
        refine ⟨h2, ?_⟩
        intro j hj
        fin_cases j
        · exact h0
        · exact h1
        · exact absurd hj (by simp [Fin.lt_def])
      | none => rw [h2] at h; cases h

theorem runStrategies_stable (resp : Fin 3 → Except String String) (k : Fin 3)
    (c : String) (v : VerifyResult)
    (h : runStrategies resp = some (k, c, v))
    (resp' : Fin 3 → Except String String)
    (hagree : ∀ j : Fin 3, j ≤ k → resp' j = resp j) :
    runStrategies resp' = some (k, c, v) := by
  unfold runStrategies at h ⊢
  cases h0 : attemptStrategy (resp 0) with
  | some p =>
    obtain ⟨p1, p2⟩ := p
    rw [h0] at h
    simp only [Option.some.injEq, Prod.mk.injEq] at h
    obtain ⟨hk, hc, hv⟩ := h
    subst hk; subst hc; subst hv
    rw [hagree 0 (by decide), h0]
  | none =>
    rw [h0] at h
    cases h1 : attemptStrategy (resp 1) with
    | some p =>
      obtain ⟨p1, p2⟩ := p
      rw [h1] at h
      simp only [Option.some.injEq, Prod.mk.injEq] at h
      obtain ⟨hk, hc, hv⟩ := h
      subst hk; subst hc; subst hv
      rw [hagree 0 (by decide), h0, hagree 1 (by decide), h1]
    | none =>
      rw [h1] at h
      cases h2 : attemptStrategy (resp 2) with
      | some p =>
        obtain ⟨p1, p2⟩ := p
        rw [h2] at h
        simp only [Option.some.injEq, Prod.mk.injEq] at h
        obtain ⟨hk, hc, hv⟩ := h
        subst hk; subst hc; subst hv
        rw [hagree 0 (by decide), h0, hagree 1 (by decide), h1,
          hagree 2 (by decide), h2]
      | none => rw [h2] at h; cases h

/-! ## Claims C1, C2, C3 -/

/-- Claim C1: for every question entering the Escalation Chain the
strategies are tried in order and at most one success sets the
`verifiedAnswer` of the question — the chosen strategy is the first whose
attempt parses (every earlier attempt failed), responses of later
strategies cannot change the outcome, and when every strategy fails
(transport error or parse failure) the original `myAnswer`,
`confidence` and `reasoning` are left unmodified. -/
theorem escalation_chain_first_success (questions : List Question)
    (env : Int → Fin 3 → Except String String) (q : Question)
    (hnd : (questions.map Question.number).Nodup)
    (hq : q ∈ questions) (hlow : confOrZero q < 6) :
    ∃ q', lookupByNum (verifyLowConfidenceAnswers questions env) q.number = some q' ∧
      (runStrategies (env q.number) = none →
        q'.myAnswer = q.myAnswer ∧ q'.confidence = q.confidence ∧
        q'.reasoning = q.reasoning ∧ q'.verifiedAnswer = q.verifiedAnswer) ∧
      (∀ k content v, runStrategies (env q.number) = some (k, content, v) →
        q'.verifiedAnswer = some v.finalAnswer ∧
        (∀ j : Fin 3, j < k → attemptStrategy (env q.number j) = none) ∧
        (∀ env2 : Fin 3 → Except String String,
          (∀ j : Fin 3, j ≤ k → env2 j = env q.number j) →
          runStrategies env2 = some (k, content, v))) := by
  refine ⟨chainApply (env q.number) q, ?_, ?_, ?_⟩
  · have := verify_lookup questions env hnd q hq
    rwa [if_pos hlow] at this
  · intro hfail
    unfold chainApply
    rw [hfail]
    exact ⟨rfl, rfl, rfl, rfl⟩
  · intro k content v hsucc
    have hfirst := runStrategies_first (env q.number) k content v hsucc
    refine ⟨?_, hfirst.2, ?_⟩
    · unfold chainApply
      rw [hsucc]
      exact strategyWrite_verifiedAnswer q k content v
    · intro env2 hagree
      exact runStrategies_stable (env q.number) k content v hsucc env2 hagree

def w1q : Question :=
  { number := 1, text := "q", myAnswer := some "B", confidence := some 5,
    reasoning := some "orig" }

def w1env : Int → Fin 3 → Except String String :=
  fun _ _ => Except.error "service unavailable"

/-- Witness for C1 at a concrete run: one low-confidence question and a
provider that is down for every strategy. -/
theorem escalation_chain_first_success_witness :
    confOrZero w1q < 6 ∧
    (∃ q', lookupByNum (verifyLowConfidenceAnswers [w1q] w1env) w1q.number = some q' ∧
      (runStrategies (w1env w1q.number) = none →
        q'.myAnswer = w1q.myAnswer ∧ q'.confidence = w1q.confidence ∧
        q'.reasoning = w1q.reasoning ∧ q'.verifiedAnswer = w1q.verifiedAnswer) ∧
      (∀ k content v, runStrategies (w1env w1q.number) = some (k, content, v) →
        q'.verifiedAnswer = some v.finalAnswer ∧
        (∀ j : Fin 3, j < k → attemptStrategy (w1env w1q.number j) = none) ∧
        (∀ env2 : Fin 3 → Except String String,
          (∀ j : Fin 3, j ≤ k → env2 j = w1env w1q.number j) →
          runStrategies env2 = some (k, content, v)))) :=
  ⟨by decide,
   escalation_chain_first_success [w1q] w1env w1q (by decide) (by decide) (by decide)⟩

/-- Claim C2: `verifyLowConfidenceAnswers` attempts verification
exactly for the questions whose confidence (missing treated as 0) is
below 6; a question with confidence at least 6 is returned unchanged,
for every possible provider behaviour — no strategy is invoked for it. -/
theorem threshold_gate (questions : List Question)
    (env : Int → Fin 3 → Except String String) (q : Question)
    (hnd : (questions.map Question.number).Nodup) (hq : q ∈ questions) :
    (6 ≤ confOrZero q →
      lookupByNum (verifyLowConfidenceAnswers questions env) q.number = some q) ∧
    (confOrZero q < 6 →
      lookupByNum (verifyLowConfidenceAnswers questions env) q.number =
        some (chainApply (env q.number) q)) := by
  have hchar := verify_lookup questions env hnd q hq
  constructor
  · intro hhigh
    rwa [if_neg (by omega)] at hchar
  · intro hlow
    rwa [if_pos hlow] at hchar

def whigh : Question :=
  { number := 2, text := "q", myAnswer := some "C", confidence := some 8 }

/-- Witness for C2: a mixed batch; the confidence-8 question passes
through untouched. -/
theorem threshold_gate_witness :
    6 ≤ confOrZero whigh ∧
    ((6 ≤ confOrZero whigh →
      lookupByNum (verifyLowConfidenceAnswers [w1q, whigh] w1env) whigh.number =
        some whigh) ∧
     (confOrZero whigh < 6 →
      lookupByNum (verifyLowConfidenceAnswers [w1q, whigh] w1env) whigh.number =
        some (chainApply (w1env whigh.number) whigh))) :=
  ⟨by decide, threshold_gate [w1q, whigh] w1env whigh (by decide) (by decide)⟩

def c3resp : String :=
  "Analysis text\n```json\n\x7b \"reasoningSummary\": \"ok\", \"finalAnswer\": \"B\", \"confidence\": 3 \x7d\n```"

def c3q : Question :=
  { number := 1, text := "q", myAnswer := some "B", confidence := some 5,
    reasoning := some "orig" }

def c3env : Int → Fin 3 → Except String String :=
  fun _ j => if j = 0 then Except.ok c3resp else Except.error "down"

/-- Claim C3 counterexample: a strategy that confirms the existing
answer "B" while self-reporting confidence 3 on a question whose prior
confidence was 5.  The recorded confidence is 3, the value reported by the strategy,
not the maximum of old and new — no max policy exists in the code. -/
theorem confirmation_max_counterexample :
    ((lookupByNum (verifyLowConfidenceAnswers [c3q] c3env) 1).map
        (fun q' => (q'.verifiedAnswer, q'.confidence)) =
      some (some "B", some 3)) ∧
    c3q.myAnswer = some "B" ∧
    c3q.confidence = some 5 ∧
    ((3 : Int) ≠ max 5 3) := by
  refine ⟨?_, rfl, rfl, by decide⟩
  decide

/-- Claim C3 (amended): on a successful parse, every strategy
overwrites the confidence of the question with the self-reported
value of the strategy (and the `verifiedAnswer` with its final answer), whether or not
the answer of the strategy confirms the existing one; no strategy takes the
maximum of the old and new confidence. -/
theorem confidence_always_overwritten (questions : List Question)
    (env : Int → Fin 3 → Except String String) (q : Question)
    (k : Fin 3) (content : String) (v : VerifyResult)
    (hnd : (questions.map Question.number).Nodup) (hq : q ∈ questions)
    (hlow : confOrZero q < 6)
    (hsucc : runStrategies (env q.number) = some (k, content, v)) :
    lookupByNum (verifyLowConfidenceAnswers questions env) q.number =
      some (strategyWrite q k content v) ∧
    (strategyWrite q k content v).confidence = some v.confidence ∧
    (strategyWrite q k content v).verifiedAnswer = some v.finalAnswer := by
  have hchar := verify_lookup questions env hnd q hq
  rw [if_pos hlow] at hchar
  unfold chainApply at hchar
  rw [hsucc] at hchar
  exact ⟨hchar, strategyWrite_confidence q k content v,
    strategyWrite_verifiedAnswer q k content v⟩

/-- Witness for the amended C3 at the concrete confirming run. -/
theorem confidence_always_overwritten_witness :
    lookupByNum (verifyLowConfidenceAnswers [c3q] c3env) c3q.number =
      some (strategyWrite c3q 0 c3resp
        { reasoningSummary := "ok", finalAnswer := "B", confidence := 3 }) ∧
    (strategyWrite c3q 0 c3resp
        { reasoningSummary := "ok", finalAnswer := "B", confidence := 3 }).confidence =
      some (3 : Int) ∧
    (strategyWrite c3q 0 c3resp
        { reasoningSummary := "ok", finalAnswer := "B", confidence := 3 }).verifiedAnswer =
      some "B" :=
  confidence_always_overwritten [c3q] c3env c3q 0 c3resp
    { reasoningSummary := "ok", finalAnswer := "B", confidence := 3 }
    (by decide) (by decide) (by decide) (by decide)

/-! ## Claim C10 -/

/-- Claim C10: in this pipeline variant the devils-advocate stage is
the identity — the sampled list is hard-coded empty, so for every input
list and every provider behaviour the questions are returned with no
`verifiedAnswer` or `reasoning` modified and no provider response ever
consulted. -/
theorem devils_advocate_identity (questions : List Question)
    (env : Int → Except String String) :
    devilsAdvocateCheck questions env = questions := rfl

/-! ## Claim C4 -/

/-- Claim C4 counterexample: the code "A1234" appears in two options of
one question and is missing from the cache; the fetch loop invokes the
resolver twice for it, not at most once — the extracted list is not
de-duplicated before cache lookups and fetches. -/
theorem dedup_counterexample :
    fetchInvocations [] (hcpcsCodesOf (some ["A. A1234", "B. A1234"])) "A1234" = 2 ∧
    ¬ (2 ≤ 1) := by
  constructor
  · decide
  · decide

/-- Claim C4 (amended): no de-duplication is performed.  A code already
in the cache is never fetched; a cache-missing code is fetched once per
occurrence in the extracted list, so a code extracted twice in one
question is fetched twice in that run.  (Across questions, a code that
an earlier fetch inserted into the persisted cache is a later cache hit
and is not re-fetched.) -/
theorem fetch_per_occurrence (cache : List CodeEntry) (codes : List String)
    (c : String) :
    fetchInvocations cache codes c =
      if (findEntry cache c).isSome then 0 else codes.count c := by
  unfold fetchInvocations codesToFetch
  induction codes with
  | nil => cases h : (findEntry cache c).isSome <;> simp [h, List.count_nil]
  | cons x t ih =>
    by_cases hx : x = c
    · subst hx
      cases h : findEntry cache x with
      | none =>
        rw [List.filter_cons]
        simp only [h, Option.isNone_none, Option.isSome_none, Bool.false_eq_true,
          if_false, if_true]
        rw [List.count_cons_self, List.count_cons]
        simp only [h, Option.isSome_none, Bool.false_eq_true, if_false] at ih
        simp [ih]
      | some e =>
        rw [List.filter_cons]
        simp only [h, Option.isNone_some, Bool.false_eq_true, if_false]
        simpa [h] using ih
    · rw [List.filter_cons]
      cases hq : (findEntry cache x).isNone with
      | true =>
        simp only [hq, if_true]
        rw [List.count_cons]
        simp only [beq_iff_eq]
        rw [if_neg hx, ih]
        cases h : (findEntry cache c).isSome <;>
          simp [List.count_cons, hx, Ne.symm hx]
      | false =>
        simp only [hq, Bool.false_eq_true, if_false]
        rw [ih]
        cases h : (findEntry cache c).isSome <;>
          simp [List.count_cons, hx, Ne.symm hx]

/-! ## Claim C5 -/

def c5data : Json := Json.arr [Json.num 0, Json.arr [], Json.null, Json.arr []]

/-- Claim C5 counterexample: an HCPCS lookup whose fetch returns a
well-formed not-found response (zero hits) inserts nothing into the
cache — no placeholder is synthesized, so a later lookup of the same
code is still a miss and would re-fetch, contrary to the "for every family" in the claim. -/
theorem placeholder_counterexample :
    (hcpcsFetchStep [] "A9999" (Except.ok c5data)).1 = [] ∧
    findEntry (hcpcsFetchStep [] "A9999" (Except.ok c5data)).1 "A9999" = none := by
  constructor
  · decide
  · decide

theorem findEntry_append_self (cache : List CodeEntry) (e : CodeEntry)
    (hmiss : findEntry cache e.code = none) :
    findEntry (cache ++ [e]) e.code = some e := by
  unfold findEntry at hmiss ⊢
  induction cache with
  | nil => simp [List.find?]
  | cons x t ih =>
    rw [List.cons_append, List.find?]
    rw [List.find?] at hmiss
    cases hx : x.code == e.code with
    | true => rw [hx] at hmiss; cases hmiss
    | false => rw [hx] at hmiss; simp only [hx]; exact ih hmiss

/-- Claim C5 (amended): the fail-soft placeholder policy exists only
for the CPT family — a CPT fetch that ends in a transport error (404
or otherwise) or in an empty scrape inserts a synthesized research
placeholder for the code, so a later lookup is a cache hit; the HCPCS
and ICD-10 handlers insert nothing on not-found or transport error
(the code would be re-fetched on a later run).  In every family the
failure is absorbed (the fetch step returns normally) and never
surfaced to the caller as an error. -/
theorem fail_soft_insertion (cache : List CodeEntry) (code : String)
    (e : HttpErr) (data : Json) (msg : String)
    (hmiss : findEntry cache code = none)
    (hnf : clinicalTablesExtract data code = none) :
    (findEntry (cptFetchStep cache code (Except.error e)).1 code =
      some { code := code,
             description := if e.status = some 404 then cptNotFoundMsg code
                            else cptErrorMsg code }) ∧
    (findEntry (cptFetchStep cache code (Except.ok "")).1 code =
      some { code := code, description := cptPlaceholder code }) ∧
    (hcpcsFetchStep cache code (Except.ok data)).1 = cache ∧
    (hcpcsFetchStep cache code (Except.error msg)).1 = cache ∧
    (icd10FetchStep cache code (Except.ok data)).1 = cache ∧
    (icd10FetchStep cache code (Except.error msg)).1 = cache := by
  refine ⟨?_, ?_, ?_, rfl, ?_, rfl⟩
  · exact findEntry_append_self cache _ hmiss
  · exact findEntry_append_self cache _ hmiss
  · simp only [hcpcsFetchStep, hnf]
  · simp only [icd10FetchStep, hnf]

/-- Witness for the amended C5 at concrete inputs: an empty cache, a
404 transport failure for CPT, and a zero-hit clinicaltables response
for HCPCS and ICD-10. -/
theorem fail_soft_insertion_witness :
    (findEntry (cptFetchStep [] "99999" (Except.error { status := some 404 })).1 "99999" =
      some { code := "99999",
             description := if ({ status := some 404 } : HttpErr).status = some 404
                            then cptNotFoundMsg "99999" else cptErrorMsg "99999" }) ∧
    (findEntry (cptFetchStep [] "99999" (Except.ok "")).1 "99999" =
      some { code := "99999", description := cptPlaceholder "99999" }) ∧
    ((hcpcsFetchStep [] "99999" (Except.ok c5data)).1 = []) ∧
    ((hcpcsFetchStep [] "99999" (Except.error "timeout")).1 = []) ∧
    ((icd10FetchStep [] "99999" (Except.ok c5data)).1 = []) ∧
    ((icd10FetchStep [] "99999" (Except.error "timeout")).1 = []) :=
  fail_soft_insertion [] "99999" { status := some 404 } c5data "timeout" rfl rfl

/-! ## Claim C6 -/

theorem findLabel_occ {α : Type} (label : List Char) (cap : List Char → Option α) :
    ∀ l : List Char, firstOccAux label l = none →
      findLabelCaptureAux label cap l = none := by
  intro l
  induction l with
  | nil => intro _; rfl
  | cons c rest ih =>
    intro hocc
    unfold firstOccAux at hocc
    by_cases hm : headMatches label (c :: rest)
    · rw [if_pos hm] at hocc; cases hocc
    · rw [if_neg hm] at hocc
      have hrest : firstOccAux label rest = none := by
        cases h : firstOccAux label rest with
        | none => rfl
        | some i => rw [h] at hocc; cases hocc
      unfold findLabelCaptureAux
      rw [if_neg hm]
      exact ih hrest

theorem containsSub_false_occ (content pat : String)
    (h : containsSub content pat = false) :
    firstOccAux pat.data content.data = none := by
  unfold containsSub firstOcc at h
  cases hh : firstOccAux pat.data content.data with
  | none => rfl
  | some i => rw [hh] at h; cases h

/-- Claim C6: a response missing the required `Answer:` or
`Confidence:` label never raises — it yields the fixed fallback record
(answer "A", confidence 5, reasoning flagging the parse failure) —
while a response carrying both labels but no `Reasoning:` label yields
the parsed answer and confidence with reasoning defaulted to the empty
string. -/
theorem answerer_fallback (content : String) :
    ((containsSub content "Answer:" = false ∨
      containsSub content "Confidence:" = false) →
      parseGeneralResponse content = fallbackRecord) ∧
    (∀ a c, matchAnswerLabel content = some a →
      matchConfidenceLabel content = some c →
      containsSub content "Reasoning:" = false →
      parseGeneralResponse content =
        { answer := ⟨[a]⟩, confidence := (c : Int), reasoning := "" }) := by
  constructor
  · intro h
    unfold parseGeneralResponse
    rcases h with h | h
    · have hnone : matchAnswerLabel content = none :=
        findLabel_occ _ _ _ (containsSub_false_occ content "Answer:" h)
      rw [hnone]
    · have hnone : matchConfidenceLabel content = none :=
        findLabel_occ _ _ _ (containsSub_false_occ content "Confidence:" h)
      rw [hnone]
      cases matchAnswerLabel content <;> rfl
  · intro a c ha hc hr
    have hrn : matchReasoningLabel content = none :=
      findLabel_occ _ _ _ (containsSub_false_occ content "Reasoning:" hr)
    unfold parseGeneralResponse
    rw [ha, hc, hrn]
    rfl

/-- Witness for C6: a response with no `Confidence:` label falls back;
a response with both labels and no `Reasoning:` label parses with empty
reasoning. -/
theorem answerer_fallback_witness :
    parseGeneralResponse "Answer: B" = fallbackRecord ∧
    parseGeneralResponse "Answer: B\nConfidence: 7" =
      { answer := "B", confidence := 7, reasoning := "" } :=
  ⟨(answerer_fallback "Answer: B").1 (Or.inr (by decide)),
   (answerer_fallback "Answer: B\nConfidence: 7").2 'B' 7
     (by decide) (by decide) (by decide)⟩

/-! ## Claim C7 -/

/-- The claim reads "an option contains a one-letter+4-digit code whose
letter is not 'C'": ANY occurrence in the option, not only the leftmost
one.  (Definition follows the words of the claim, for comparison with the
test in the code.) -/
def specOptionHasNonCCode (opt : String) : Bool :=
  (List.tails opt.data).any (fun t =>
    match hcpcsAt t with
    | some m => m.headD 'C' ≠ 'C'
    | none => false)

def c7q : Question :=
  { number := 1, text := "which of these", options := some ["A. C1234 A5678"] }

/-- Claim C7 counterexample: the option "A. C1234 A5678" contains the
non-C token A5678, and the question has no family keywords, so by the
claim it must classify HCPCS; the code inspects only the option
leftmost token C1234, skips HCPCS, and classifies ICD-10. -/
theorem classifier_firstmatch_counterexample :
    hasHcpcsKeywords c7q = false ∧
    specOptionHasNonCCode "A. C1234 A5678" = true ∧
    determineQuestionType c7q = QType.ICD10 ∧
    ¬ determineQuestionType c7q = QType.HCPCS := by
  exact ⟨by decide, by decide, by decide, by decide⟩

/-- Claim C7 (amended): the classifier is a total deterministic
function testing HCPCS, ICD-10, CPT, GENERAL in order with first match
winning; with no HCPCS keyword present, it returns HCPCS exactly when
the LEFTMOST one-letter+4-digit token of some option has a letter other than
'C' (a later non-C token in the same option is never examined); a
question matching no rule is GENERAL. -/
theorem classifier_precedence (q : Question) :
    (hasHcpcsKeywords q = true → determineQuestionType q = QType.HCPCS) ∧
    (hasHcpcsKeywords q = false →
      (determineQuestionType q = QType.HCPCS ↔
        ∃ opts, q.options = some opts ∧ ∃ opt ∈ opts, ∃ m,
          firstHcpcs opt = some m ∧ m.data.headD 'C' ≠ 'C')) ∧
    (hasHcpcsKeywords q = false → hasHcpcsOption q = false →
      hasIcdKeywords q = false → hasIcdOption q = false →
      hasCptKeywords q = false → hasCptOption q = false →
      determineQuestionType q = QType.GENERAL) := by
  refine ⟨?_, ?_, ?_⟩
  · intro hk
    unfold determineQuestionType
    rw [hk]
    rfl
  · intro hk
    unfold determineQuestionType
    rw [hk]
    simp only [Bool.false_eq_true, if_false]
    constructor
    · intro hres
      by_cases ho : hasHcpcsOption q = true
      · unfold hasHcpcsOption at ho
        cases hopt : q.options with
        | none => rw [hopt] at ho; cases ho
        | some os =>
          rw [hopt] at ho
          obtain ⟨opt, hmem, htrig⟩ := List.any_eq_true.mp ho
          refine ⟨os, rfl, opt, hmem, ?_⟩
          unfold optionTriggersHcpcs at htrig
          cases hf : firstHcpcs opt with
          | none => rw [hf] at htrig; cases htrig
          | some m =>
            rw [hf] at htrig
            exact ⟨m, rfl, of_decide_eq_true htrig⟩
      · exfalso
        have hob : hasHcpcsOption q = false := by
          cases hv : hasHcpcsOption q
          · rfl
          · exact absurd hv ho
        rw [hob] at hres
        simp only [Bool.false_eq_true, if_false] at hres
        split_ifs at hres
    · rintro ⟨os, hopt, opt, hmem, m, hf, hm⟩
      have ho : hasHcpcsOption q = true := by
        unfold hasHcpcsOption
        rw [hopt]
        refine List.any_eq_true.mpr ⟨opt, hmem, ?_⟩
        unfold optionTriggersHcpcs
        rw [hf]
        exact decide_eq_true hm
      rw [ho]
      rfl
  · intro h1 h2 h3 h4 h5 h6
    unfold determineQuestionType
    rw [h1, h2, h3, h4, h5, h6]
    rfl

def w7q : Question :=
  { number := 3, text := "pick one", options := some ["A. E0110 crutches"] }

/-- Witness for the amended C7: an option with leftmost token E0110, which is
non-C, classifies the keywordless question as HCPCS. -/
theorem classifier_precedence_witness :
    determineQuestionType w7q = QType.HCPCS :=
  ((classifier_precedence w7q).2.1 (by decide)).mpr
    ⟨["A. E0110 crutches"], rfl, "A. E0110 crutches", by decide, "E0110",
      by decide, by decide⟩

/-! ## Claim C8 -/

/-- The claim reads: the submitted final answer is "verifiedAnswer if
present, otherwise myAnswer" (the spec writes `verifiedAnswer ??
myAnswer`).  Definition follows the words of the claim, for comparison with
the `verifiedAnswer || myAnswer` in the code. -/
def specFinalAnswer (q : Question) : Option String :=
  match q.verifiedAnswer with
  | some s => some s
  | none => q.myAnswer

def c8q : Question :=
  { number := 1, text := "", myAnswer := some "B", verifiedAnswer := some "" }

/-- Claim C8 counterexample: a question whose `verifiedAnswer` is
present but the empty string.  By the claim the submitted final answer
is that empty string, which cannot exactly match the key letter "B";
the `||` in the code falls back to `myAnswer` "B" and scores the question
correct. -/
theorem scorer_present_counterexample :
    specFinalAnswer c8q = some "" ∧
    ¬ (some "" = some "B") ∧
    finalAnswerJs c8q = some "B" ∧
    (scoreAgainstKey [c8q] [{ number := 1, answer := "B" }]).correctAnswers = 1 := by
  exact ⟨by decide, by decide, by decide, by decide⟩

theorem finalAnswers_find (questions : List Question) (n : Int) :
    (questions.map (fun q => (q.number, finalAnswerJs q))).find?
        (fun a => a.1 == n) =
      (lookupByNum questions n).map (fun q => (q.number, finalAnswerJs q)) := by
  rw [List.find?_map]
  rfl

theorem row_myAnswer (questions : List Question) (n : Int) :
    ((questions.map (fun q => (q.number, finalAnswerJs q))).find?
        (fun a => a.1 == n)).bind (fun a => a.2) =
      (lookupByNum questions n).bind finalAnswerJs := by
  rw [finalAnswers_find]
  cases lookupByNum questions n <;> rfl

theorem compareRow_eq (questions : List Question) (keyItem : KeyItem) :
    compareRow (questions.map (fun q => (q.number, finalAnswerJs q))) keyItem =
      { number := keyItem.number
        myAnswer := ((jsOrStr ((lookupByNum questions keyItem.number).bind
            finalAnswerJs) (some "N/A")).getD "N/A")
        correctAnswer := keyItem.answer
        isCorrect := ((lookupByNum questions keyItem.number).bind finalAnswerJs ==
          some keyItem.answer) } := by
  simp only [compareRow]
  rw [row_myAnswer questions keyItem.number]

/-- Claim C8 (amended): for each answer-key entry the scorer emits one
row whose correctness is the exact equality of the key letter with the
submitted final answer — `verifiedAnswer` when present AND non-empty
(the code uses JS `||`), otherwise `myAnswer` — a key entry with no
matching submission is scored incorrect (row "N/A"), never an
exception; the correct count is the number of key entries so matched;
and on submissions 1↦B, 2↦A against key 1↦B, 2↦C, 3↦D the outcome is 1
correct, 2 incorrect, 33 percent. -/
theorem scorer_key_match (questions : List Question) (key : List KeyItem) :
    ((scoreAgainstKey questions key).totalQuestions = key.length) ∧
    (∀ keyItem ∈ key,
      ({ number := keyItem.number
         myAnswer := ((jsOrStr ((lookupByNum questions keyItem.number).bind
             finalAnswerJs) (some "N/A")).getD "N/A")
         correctAnswer := keyItem.answer
         isCorrect := ((lookupByNum questions keyItem.number).bind finalAnswerJs ==
           some keyItem.answer) } : ResultItem) ∈
        (scoreAgainstKey questions key).details) ∧
    ((scoreAgainstKey questions key).correctAnswers =
      (key.filter (fun keyItem =>
        (lookupByNum questions keyItem.number).bind finalAnswerJs ==
          some keyItem.answer)).length) ∧
    ((scoreAgainstKey
        [{ number := 1, text := "", myAnswer := some "B" },
         { number := 2, text := "", myAnswer := some "A" }]
        [{ number := 1, answer := "B" }, { number := 2, answer := "C" },
         { number := 3, answer := "D" }]).correctAnswers = 1 ∧
     (scoreAgainstKey
        [{ number := 1, text := "", myAnswer := some "B" },
         { number := 2, text := "", myAnswer := some "A" }]
        [{ number := 1, answer := "B" }, { number := 2, answer := "C" },
         { number := 3, answer := "D" }]).incorrectAnswers = 2 ∧
     (scoreAgainstKey
        [{ number := 1, text := "", myAnswer := some "B" },
         { number := 2, text := "", myAnswer := some "A" }]
        [{ number := 1, answer := "B" }, { number := 2, answer := "C" },
         { number := 3, answer := "D" }]).percentage = 33) := by
  refine ⟨?_, ?_, ?_, by decide, by decide, by decide⟩
  · show (compareResults questions key).length = key.length
    unfold compareResults
    exact List.length_map _ _
  · intro keyItem hmem
    have h := List.mem_map_of_mem
      (compareRow (questions.map (fun q => (q.number, finalAnswerJs q)))) hmem
    rw [compareRow_eq questions keyItem] at h
    exact h
  · show ((compareResults questions key).filter (fun r => r.isCorrect)).length = _
    unfold compareResults
    rw [List.filter_map]
    rw [List.length_map]
    congr 1
    apply List.filter_congr
    intro keyItem _
    show (compareRow _ keyItem).isCorrect = _
    rw [compareRow_eq questions keyItem]

/-- Witness for the amended C8: key entry 3 has no submission and is
scored as an incorrect "N/A" row. -/
theorem scorer_key_match_witness :
    ({ number := 3
       myAnswer := ((jsOrStr ((lookupByNum
           [({ number := 1, text := "", myAnswer := some "B" } : Question)]
           (3 : Int)).bind finalAnswerJs) (some "N/A")).getD "N/A")
       correctAnswer := "D"
       isCorrect := ((lookupByNum
           [({ number := 1, text := "", myAnswer := some "B" } : Question)]
           (3 : Int)).bind finalAnswerJs == some "D") } : ResultItem) ∈
      (scoreAgainstKey [{ number := 1, text := "", myAnswer := some "B" }]
        [{ number := 3, answer := "D" }]).details :=
  (scorer_key_match [{ number := 1, text := "", myAnswer := some "B" }]
    [{ number := 3, answer := "D" }]).2.1 { number := 3, answer := "D" }
    (by decide)

/-! ## Claim C9 -/

theorem typeStats_bump (tb : TypeTable) (ty : QType) (isC : Bool) (t : QType) :
    typeStats (bumpType tb ty isC) t =
      if ty = t then bumpStats (typeStats tb t) isC else typeStats tb t := by
  cases ty <;> cases t <;> simp [bumpType, typeStats]

theorem plFold_type (t : QType) :
    ∀ (qs : List Question) (p : TypeTable × List (String × Stats)),
    typeStats ((qs.foldl plStep p).1) t =
      { total := (typeStats p.1 t).total +
          (qs.filter (fun q => qTypeOf q == t)).length
        correct := (typeStats p.1 t).correct +
          (qs.filter (fun q => qTypeOf q == t && isCorrectJs q)).length
        percentage := (typeStats p.1 t).percentage } := by
  intro qs
  induction qs with
  | nil => intro p; simp
  | cons q qs' ih =>
    intro p
    rw [List.foldl_cons, ih (plStep p q)]
    have hb : typeStats ((plStep p q).1) t =
        if qTypeOf q = t then bumpStats (typeStats p.1 t) (isCorrectJs q)
        else typeStats p.1 t :=
      typeStats_bump p.1 (qTypeOf q) (isCorrectJs q) t
    rw [hb, List.filter_cons, List.filter_cons]
    by_cases ht : qTypeOf q = t
    · have h1 : (qTypeOf q == t) = true := by simp [ht]
      rw [if_pos ht]
      cases hc : isCorrectJs q with
      | true =>
        simp only [h1, hc, Bool.true_and, if_true, bumpStats, Stats.mk.injEq,
          List.length_cons]
        and_intros <;> first | trivial | omega
      | false =>
        simp only [h1, hc, Bool.true_and, Bool.false_eq_true, if_true, if_false,
          bumpStats, Stats.mk.injEq, List.length_cons]
        and_intros <;> first | trivial | omega
    · have h1 : (qTypeOf q == t) = false := by simp [ht]
      rw [if_neg ht]
      simp only [h1, Bool.false_and, Bool.false_eq_true, if_false]

theorem bumpModel_pos (m : String) (b : Bool) :
    ∀ (l : List (String × Stats)),
    (∀ ms ∈ l, 0 < ms.2.total) →
    ∀ ms ∈ bumpModel l m b, 0 < ms.2.total := by
  intro l
  induction l with
  | nil =>
    intro _ ms hms
    simp only [bumpModel, List.mem_singleton] at hms
    subst hms
    simp [bumpStats, emptyStats]
  | cons e rest ih =>
    intro hl ms hms
    obtain ⟨k, st⟩ := e
    unfold bumpModel at hms
    by_cases hk : k = m
    · rw [if_pos hk] at hms
      rcases List.mem_cons.mp hms with rfl | hmem
      · simp [bumpStats]
      · exact hl _ (List.mem_cons_of_mem _ hmem)
    · rw [if_neg hk] at hms
      rcases List.mem_cons.mp hms with rfl | hmem
      · exact hl _ (List.mem_cons_self _ _)
      · exact ih (fun x hx => hl x (List.mem_cons_of_mem _ hx)) ms hmem

theorem plFold_model_pos :
    ∀ (qs : List Question) (p : TypeTable × List (String × Stats)),
    (∀ ms ∈ p.2, 0 < ms.2.total) →
    ∀ ms ∈ (qs.foldl plStep p).2, 0 < ms.2.total := by
  intro qs
  induction qs with
  | nil => intro p hp; exact hp
  | cons q qs' ih =>
    intro p hp
    rw [List.foldl_cons]
    exact ih (plStep p q) (bumpModel_pos (modelOf q) (isCorrectJs q) p.2 hp)

/-- Claim C9: in the generated PerformanceLog every per-family entry
counts exactly the questions of that family (and the correct ones among
them) and reports the rounded percentage, with a zero-observed family
reporting 0 instead of dividing by zero; and every per-model entry in
the log has a positive total and reports the rounded percentage of its
counts, so no division by zero is ever performed. -/
theorem performance_percentages (questions : List Question) :
    (∀ t : QType,
      (typeStats (generatePerformanceLog questions).byQuestionType t).total =
        (questions.filter (fun q => qTypeOf q == t)).length ∧
      (typeStats (generatePerformanceLog questions).byQuestionType t).correct =
        (questions.filter (fun q => qTypeOf q == t && isCorrectJs q)).length ∧
      (typeStats (generatePerformanceLog questions).byQuestionType t).percentage =
        (if 0 < (questions.filter (fun q => qTypeOf q == t)).length
         then jsRoundPct
            (questions.filter (fun q => qTypeOf q == t && isCorrectJs q)).length
            (questions.filter (fun q => qTypeOf q == t)).length
         else 0)) ∧
    (∀ ms ∈ (generatePerformanceLog questions).byModel,
      0 < ms.2.total ∧ ms.2.percentage = jsRoundPct ms.2.correct ms.2.total) := by
  constructor
  · intro t
    have hfold := plFold_type t questions (initTable, [])
    have hinit : typeStats initTable t = emptyStats := by
      cases t <;> rfl
    have hpct : typeStats (generatePerformanceLog questions).byQuestionType t =
        pctPass (typeStats ((questions.foldl plStep (initTable, [])).1) t) := by
      cases t <;> rfl
    rw [hpct, hfold, hinit]
    simp only [emptyStats, Nat.zero_add, pctPass]
    and_intros <;> trivial
  · intro ms hms
    have hmap : (generatePerformanceLog questions).byModel =
        ((questions.foldl plStep (initTable, [])).2).map
          (fun p => (p.1, pctPass p.2)) := rfl
    rw [hmap] at hms
    obtain ⟨pre, hpre, hpeq⟩ := List.mem_map.mp hms
    have hpos : 0 < pre.2.total :=
      plFold_model_pos questions (initTable, []) (by intro x hx; cases hx) pre hpre
    constructor
    · rw [← hpeq]
      exact hpos
    · rw [← hpeq]
      show (pctPass pre.2).percentage = jsRoundPct (pctPass pre.2).correct (pctPass pre.2).total
      simp only [pctPass]
      rw [if_pos hpos]

def w9a : Question :=
  { number := 1, text := "", questionType := some QType.CPT,
    isCorrect := some true, modelUsed := some "o3" }

def w9b : Question :=
  { number := 2, text := "", questionType := some QType.CPT,
    isCorrect := some false, modelUsed := some "o3" }

/-- Witness for C9 at a concrete log: the model "o3" answered 2
questions, 1 correctly, and its entry reports 50 percent. -/
theorem performance_percentages_witness :
    0 < (("o3", ({ total := 2, correct := 1, percentage := 50 } : Stats)) :
        String × Stats).2.total ∧
    (("o3", ({ total := 2, correct := 1, percentage := 50 } : Stats)) :
        String × Stats).2.percentage =
      jsRoundPct 1 2 :=
  (performance_percentages [w9a, w9b]).2
    ("o3", { total := 2, correct := 1, percentage := 50 }) (by decide)

end MedAgent
